import Mathlib

/-!
Verification of the `datachangelog` audit-log subsystem of jec-go-helper.

The Go sources are shallowly embedded:
* Go strings are `List Char` (`GoStr`); the strings appearing here are ASCII,
  so byte-level operations (`s[:1]`, `len`) and rune-level operations coincide.
* JSON-decoded `map[string]interface{}` document trees are the inductive
  `GoVal` / association lists `GoMap`.  Go's JSON decoder produces only
  `nil`, `bool`, `float64`, `string`, `[]interface{}` and
  `map[string]interface{}` values; `vInt` models the integral `float64`
  values exercised by the configuration and scenarios (Go's `%v` prints the
  float64 `3` as `3`, matching decimal rendering), `vBytes` models `[]byte`
  arguments passed directly to `SanitizeValue`.
* Go maps have unique keys; the association-list operations (`mapGet`,
  `mapSet`, `mergeMaps`) implement exactly the Go map lookup/insert
  semantics on such lists.
* Fallible or stateful Go code becomes explicit data: the interceptor is a
  pure function from the call data (including the downstream handler's
  result) to the returned response/error pair plus the audit event handed to
  `Repository.Save`, if any.
-/

set_option autoImplicit false

namespace Datachangelog

/-- Go strings, modelled as lists of characters. -/
abbrev GoStr := List Char

/-- Go `strings.ToLower` (ASCII range, which is all the embedded code uses). -/
def strToLower (s : GoStr) : GoStr :=
  s.map Char.toLower

/-- Go `strings.Split(s, sep)` for a one-character separator.
`Split("", sep) = [""]`, and separators at the ends produce empty fields,
exactly as in Go. -/
def splitOnChar (sep : Char) : GoStr → List GoStr
  | [] => [[]]
  | c :: rest =>
    match splitOnChar sep rest with
    | [] => [[c]]
    | h :: t => if c = sep then [] :: h :: t else (c :: h) :: t

/-- Go `strings.Contains(s, sub)`. -/
def containsSub (s sub : GoStr) : Bool :=
  if sub.isPrefixOf s then true
  else
    match s with
    | [] => false
    | _ :: rest => containsSub rest sub

/-- Go `strings.Join(elems, sep)`. -/
def joinSep (sep : GoStr) : List GoStr → GoStr
  | [] => []
  | [x] => x
  | x :: xs => x ++ sep ++ joinSep sep xs

/-- helper.go `capitalizeFirstLetter`: upper-case the first byte
(ASCII: first character) and keep the rest. -/
def capitalizeFirstLetter (s : GoStr) : GoStr :=
  match s with
  | [] => []
  | c :: rest => Char.toUpper c :: rest

/-- Decimal rendering of a natural number (Go `%d`). -/
def natToDec (n : Nat) : GoStr :=
  Nat.toDigits 10 n

/-- Zero-pad on the left to width `w` (Go `%0wd`). -/
def padZero (w : Nat) (s : GoStr) : GoStr :=
  List.replicate (w - s.length) '0' ++ s

/-- Go `fmt.Sprintf("%04d", n)`. -/
def fmt04 (n : Nat) : GoStr :=
  padZero 4 (natToDec n)

/-- Go `fmt.Sprintf("%02d", n)`. -/
def fmt02 (n : Nat) : GoStr :=
  padZero 2 (natToDec n)

/-- Decimal rendering of an integer (Go `%d` / `%v` on integral values). -/
def intToDec (i : Int) : GoStr :=
  if i < 0 then '-' :: natToDec i.natAbs else natToDec i.toNat

/-- JSON-style document values, the shapes produced by `protoToMap`
(`json.Unmarshal` into `map[string]interface{}`) plus `vBytes` for `[]byte`
arguments handed straight to the sanitizer. -/
inductive GoVal where
  | vNull : GoVal
  | vBool (b : Bool) : GoVal
  | vInt (n : Int) : GoVal
  | vStr (s : GoStr) : GoVal
  | vBytes (s : GoStr) : GoVal
  | vArr (elems : List GoVal) : GoVal
  | vMap (entries : List (GoStr × GoVal)) : GoVal

/-- Go `val != nil` on an interface value holding a JSON-decoded entry: a
constructor test for JSON null. -/
def isNullVal : GoVal → Bool
  | GoVal.vNull => true
  | _ => false

/-- A Go `map[string]interface{}`: an association list with unique keys. -/
abbrev GoMap := List (GoStr × GoVal)

/-- Go map lookup `m[k]` with presence flag: `some v` means the key is
present (possibly bound to JSON null = `vNull`). -/
def mapGet (m : GoMap) (k : GoStr) : Option GoVal :=
  match m with
  | [] => none
  | (k2, v) :: rest => if k2 = k then some v else mapGet rest k

/-- Key-presence test for a Go map. -/
def mapHas (m : GoMap) (k : GoStr) : Bool :=
  m.any (fun kv => kv.1 == k)

/-- Go map insert `m[k] = v`: replace the binding if the key is present,
otherwise add it. -/
def mapSet (m : GoMap) (k : GoStr) (v : GoVal) : GoMap :=
  if mapHas m k then m.map (fun kv => if kv.1 = k then (kv.1, v) else kv)
  else m ++ [(k, v)]

/-- interceptor.go `mergeMaps`: copy `m1`, then copy `m2` over it
(`m2` wins on key collisions).  As a key-value function this equals the Go
result; iteration order of the Go map is immaterial since keys are unique. -/
def mergeMaps (m1 m2 : GoMap) : GoMap :=
  m2.foldl (fun acc kv => mapSet acc kv.1 kv.2) m1

/-! Go `fmt.Sprintf("%v", value)` for the values reachable here.
Container values are rendered in entry order (Go's `fmt` sorts map keys;
no configuration in this development uses a container-valued primary-key
field, which is the only place this rendering is consumed). -/
mutual

def goSprintf : GoVal → GoStr
  | GoVal.vNull => "<nil>".data
  | GoVal.vBool b => if b then "true".data else "false".data
  | GoVal.vInt n => intToDec n
  | GoVal.vStr s => s
  | GoVal.vBytes s => s
  | GoVal.vArr a => '[' :: goSprintfElems a ++ [']']
  | GoVal.vMap m => "map[".data ++ goSprintfEntries m ++ [']']

def goSprintfElems : List GoVal → GoStr
  | [] => []
  | [v] => goSprintf v
  | v :: rest => goSprintf v ++ ' ' :: goSprintfElems rest

def goSprintfEntries : List (GoStr × GoVal) → GoStr
  | [] => []
  | [(k, v)] => k ++ ':' :: goSprintf v
  | (k, v) :: rest => k ++ ':' :: goSprintf v ++ ' ' :: goSprintfEntries rest

end

/-! ## Sanitizer (sanitizer source file, `Sanitizer` with `redactionChar = "*"`) -/

/-- The `Sanitizer.redactionChar`, always `"*"` (`NewSanitizer`). -/
def redactionChar : Char := '*'

/-- sanitizer `redactString` (the active "new version"): full masking for
length ≤ 4, otherwise 80:20 masking.  Go computes
`visible = int(math.Ceil(float64(n) * 0.2))`; for every string length
representable here that float64 expression is exactly `⌈n/5⌉ = (n+4)/5`
(the rounding error of `0.2` times `n` stays below the half-ulp of `n/5`
for all `n < 10·2⁵²`), which is how it is written below. -/
def redactString (value : GoStr) : GoStr :=
  let n := value.length
  if n = 0 then value
  else if n ≤ 4 then List.replicate n redactionChar
  else
    let visible := max 2 ((n + 4) / 5)
    let prefixLen := visible / 2
    let suffixLen := visible - prefixLen
    value.take prefixLen
      ++ List.replicate (n - prefixLen - suffixLen) redactionChar
      ++ value.drop (n - suffixLen)

/-- sanitizer `SanitizeValue` (the active "new version"): `nil` stays `nil`,
strings and `[]byte` are redacted, everything else becomes `"****"`. -/
def SanitizeValue : GoVal → GoVal
  | GoVal.vNull => GoVal.vNull
  | GoVal.vStr s => GoVal.vStr (redactString s)
  | GoVal.vBytes s => GoVal.vStr (redactString s)
  | _ => GoVal.vStr ( "****".data)

/-- Case-insensitive membership of a field name in a field list: Go builds a
set of lower-cased names and looks up the lower-cased key. -/
def lowerMem (key : GoStr) (fields : List GoStr) : Bool :=
  fields.any (fun f => strToLower f == strToLower key)

/-! sanitizer `SanitizeMap` body (non-nil case) together with
`sanitizeSlice`: excluded keys are dropped, sensitive keys are masked with
`SanitizeValue`, nested maps are recursed, lists are recursed element-wise
but only map elements are recursed into — every other list element
(including a nested list) is passed through unchanged, exactly as in
`sanitizeSlice`'s `default` case. -/
mutual

def sanitizeEntries (data : GoMap) (excludedFields sensitiveFields : List GoStr) : GoMap :=
  match data with
  | [] => []
  | (key, value) :: rest =>
    if lowerMem key excludedFields then
      sanitizeEntries rest excludedFields sensitiveFields
    else if lowerMem key sensitiveFields then
      (key, SanitizeValue value) :: sanitizeEntries rest excludedFields sensitiveFields
    else
      (key, sanitizeNested value excludedFields sensitiveFields)
        :: sanitizeEntries rest excludedFields sensitiveFields

def sanitizeNested (value : GoVal) (excludedFields sensitiveFields : List GoStr) : GoVal :=
  match value with
  | GoVal.vMap m => GoVal.vMap (sanitizeEntries m excludedFields sensitiveFields)
  | GoVal.vArr a => GoVal.vArr (sanitizeSliceGo a excludedFields sensitiveFields)
  | v => v

def sanitizeSliceGo (arr : List GoVal) (excludedFields sensitiveFields : List GoStr) : List GoVal :=
  match arr with
  | [] => []
  | GoVal.vMap m :: rest =>
    GoVal.vMap (sanitizeEntries m excludedFields sensitiveFields)
      :: sanitizeSliceGo rest excludedFields sensitiveFields
  | v :: rest => v :: sanitizeSliceGo rest excludedFields sensitiveFields

end

/-- sanitizer `SanitizeMap` including its `nil` guard (`none` models a nil
Go map). -/
def SanitizeMap (data : Option GoMap) (excludedFields sensitiveFields : List GoStr) : Option GoMap :=
  match data with
  | none => none
  | some m => some (sanitizeEntries m excludedFields sensitiveFields)

/-! ## Spec-side definitions for the masking claim (C5)

`specMask` and `specSanitizeValue` are written from the words of the claim
(resp. its amendment), to be compared with `redactString`/`SanitizeValue`
above, which are translated from the source. -/

/-- The mask described by the claim: length ≤ 4 gives `'*'` repeated, longer
strings keep `v = max(2, ⌈n·0.2⌉)` visible characters, the first `⌊v/2⌋` as
prefix and the last `v − ⌊v/2⌋` as suffix, `'*'` filling the middle. -/
def specMask (s : GoStr) : GoStr :=
  let n := s.length
  if n ≤ 4 then List.replicate n '*'
  else
    let v := max 2 ((n + 4) / 5)
    s.take (v / 2) ++ List.replicate (n - v) '*' ++ s.drop (n - (v - v / 2))

/-- Masking of a sensitive value as described by the amended claim: strings
and byte strings are masked with the claim's mask, a null value stays null,
and every other value becomes the literal `"****"`. -/
def specSanitizeValue : GoVal → GoVal
  | GoVal.vNull => GoVal.vNull
  | GoVal.vStr s => GoVal.vStr (specMask s)
  | GoVal.vBytes s => GoVal.vStr (specMask s)
  | _ => GoVal.vStr ( "****".data)

/-! ## Deep-key predicates for the sanitizer claim (C6) -/

/-! Does the document tree contain, at any depth, a map key matching one of
`fields` case-insensitively? -/
mutual

def hasFieldDeepEntries (entries : GoMap) (fields : List GoStr) : Bool :=
  match entries with
  | [] => false
  | (k, v) :: rest =>
    lowerMem k fields || hasFieldDeepVal v fields || hasFieldDeepEntries rest fields

def hasFieldDeepVal (v : GoVal) (fields : List GoStr) : Bool :=
  match v with
  | GoVal.vMap m => hasFieldDeepEntries m fields
  | GoVal.vArr a => hasFieldDeepElems a fields
  | _ => false

def hasFieldDeepElems (l : List GoVal) (fields : List GoStr) : Bool :=
  match l with
  | [] => false
  | v :: rest => hasFieldDeepVal v fields || hasFieldDeepElems rest fields

end

/-! Guard for the amended sanitizer claim: the tree contains no list nested
directly inside a list (map values and map elements of lists are fine). -/
mutual

def listFreeVal : GoVal → Bool
  | GoVal.vMap m => listFreeEntries m
  | GoVal.vArr a => listFreeElems a
  | _ => true

def listFreeEntries : GoMap → Bool
  | [] => true
  | (_, v) :: rest => listFreeVal v && listFreeEntries rest

def listFreeElems : List GoVal → Bool
  | [] => true
  | GoVal.vArr _ :: _ => false
  | v :: rest => listFreeVal v && listFreeElems rest

end

/-! ## Configuration (config source listed in src/pkg/datachangelog/README.md) -/

/-- config `PrimaryKeyConfig`. -/
structure PrimaryKeyConfig where
  singleKey : GoStr
  compositeKeys : List GoStr
  separator : GoStr

/-- config `EntityConfig` (the `transformers`/`metadata` maps are carried by
no claim and are omitted). -/
structure EntityConfig where
  domain : GoStr
  entity : GoStr
  enabled : Bool
  operations : List GoStr
  primaryKey : PrimaryKeyConfig
  excludedFields : List GoStr
  sensitiveFields : List GoStr
  includeBeforeData : Bool
  includeAfterData : Bool

/-- config `GlobalConfig` (the fields the claims touch). -/
structure GlobalConfig where
  enabled : Bool
  excludedFields : List GoStr
  sensitiveFields : List GoStr
  includeBeforeData : Bool
  includeAfterData : Bool

/-- config `ElasticsearchConfig` (the fields the claims touch; connection
parameters are irrelevant to the embedded logic). -/
structure ElasticsearchCfg where
  enabled : Bool
  indexPrefixStr : GoStr
  indexPattern : GoStr
  numWorkers : Nat
  bulkSize : Nat

/-- config `Config`. -/
structure Config where
  elasticsearch : ElasticsearchCfg
  entities : List EntityConfig
  globalCfg : GlobalConfig

/-- config `GetEntity`: first entity whose domain and entity name both
match. -/
def GetEntity (c : Config) (domain entity : GoStr) : Option EntityConfig :=
  c.entities.find? (fun ec => ec.domain == domain && ec.entity == entity)

/-- The domain-only entity search performed inline by `shouldLogMethod` and
`extractPrimaryKey` (first entity whose domain matches). -/
def findEntityByDomain (entities : List EntityConfig) (domain : GoStr) : Option EntityConfig :=
  entities.find? (fun ec => ec.domain == domain)

/-- config `MergeEntityConfig`, restricted to the field sets: the effective
excluded/sensitive sets are global ++ entity (the merged struct's other
fields are carried by no claim). -/
def mergedExcludedFields (c : Config) (ec : EntityConfig) : List GoStr :=
  c.globalCfg.excludedFields ++ ec.excludedFields

/-- config `MergeEntityConfig`, sensitive half. -/
def mergedSensitiveFields (c : Config) (ec : EntityConfig) : List GoStr :=
  c.globalCfg.sensitiveFields ++ ec.sensitiveFields

/-! ## Index-name generation (config `GetIndexName` / `replacePattern`) -/

/-- Go `strings.ReplaceAll(s, ph, r)` (non-overlapping, left to right),
written with explicit fuel `s.length`, which is always sufficient: each
step consumes at least one character of `s` when `ph` is non-empty, and an
empty `ph` never matches here (Go's empty-pattern insertion behaviour is
not exercised: every placeholder is a literal like `"\x7bprefix\x7d"`). -/
def replaceAllFuel : Nat → GoStr → GoStr → GoStr → GoStr
  | 0, s, _, _ => s
  | fuel + 1, s, ph, r =>
    match s with
    | [] => []
    | c :: rest =>
      if !ph.isEmpty && ph.isPrefixOf (c :: rest) then
        r ++ replaceAllFuel fuel ((c :: rest).drop ph.length) ph r
      else
        c :: replaceAllFuel fuel rest ph r

/-- Go `strings.ReplaceAll`. -/
def replaceAll (s ph r : GoStr) : GoStr :=
  replaceAllFuel s.length s ph r

/-- config `replacePattern` loop body: replace until a fixed point.  The Go
loop does not terminate when the replacement keeps reintroducing the
placeholder; the fuel below bounds the number of loop iterations and agrees
with the Go loop on every input on which that loop terminates within the
bound (all inputs evaluated in this development stabilise after one
replacement). -/
def replacePatternFuel : Nat → GoStr → GoStr → GoStr → GoStr
  | 0, pat, _, _ => pat
  | fuel + 1, pat, ph, r =>
    let next := replaceAll pat ph r
    if next = pat then pat else replacePatternFuel fuel next ph r

/-- config `replacePattern`. -/
def replacePattern (pat ph r : GoStr) : GoStr :=
  replacePatternFuel (pat.length + r.length + 8) pat ph r

/-- config `GetIndexName`: substitute `\x7bprefix\x7d`, `\x7bdomain\x7d`,
`\x7byyyy\x7d`, `\x7bMM\x7d`, `\x7bdd\x7d` into the configured pattern. -/
def GetIndexName (c : Config) (domain : GoStr) (year month day : Nat) : GoStr :=
  let p0 := c.elasticsearch.indexPattern
  let p1 := replacePattern p0 ( "\x7bprefix\x7d".data) c.elasticsearch.indexPrefixStr
  let p2 := replacePattern p1 ( "\x7bdomain\x7d".data) domain
  let p3 := replacePattern p2 ( "\x7byyyy\x7d".data) (fmt04 year)
  let p4 := replacePattern p3 ( "\x7bMM\x7d".data) (fmt02 month)
  replacePattern p4 ( "\x7bdd\x7d".data) (fmt02 day)

/-- config `setDefaults`: default index prefix. -/
def defaultIndexPrefix : GoStr := "audit-log".data

/-- config `setDefaults`: default index pattern
`"\x7bprefix\x7d-\x7bdomain\x7d-\x7byyyy.MM\x7d"`. -/
def defaultIndexPattern : GoStr := "\x7bprefix\x7d-\x7bdomain\x7d-\x7byyyy.MM\x7d".data

/-! ## helper.go -/

/-- helper.go `normalizePatchChangeData`, inner flattening loop over the
`data` array: map items carrying a string `field` and a present `value`
(possibly null) are written over the output map in array order; every other
item is skipped. -/
def flattenPatchItems (out : GoMap) (items : List GoVal) : GoMap :=
  match items with
  | [] => out
  | GoVal.vMap m :: rest =>
    let out2 :=
      match mapGet m ( "field".data) with
      | some (GoVal.vStr f) =>
        match mapGet m ( "value".data) with
        | some v => mapSet out f v
        | none => out
      | _ => out
    flattenPatchItems out2 rest
  | _ :: rest => flattenPatchItems out rest

/-- helper.go `normalizePatchChangeData`: nil map stays nil; otherwise copy
every key except `"data"`, then, if the `"data"` value is an array, overlay
its `\x7bfield, value\x7d` items. -/
def normalizePatchChangeData (reqData : Option GoMap) : Option GoMap :=
  match reqData with
  | none => none
  | some m =>
    let out := m.filter (fun kv => kv.1 != ( "data".data))
    match mapGet m ( "data".data) with
    | none => some out
    | some raw =>
      match raw with
      | GoVal.vArr items => some (flattenPatchItems out items)
      | _ => some out

/-! ## Interceptor (interceptor source file, `NewAuditInterceptor`) -/

/-- One side of an RPC exchange as the interceptor sees it: whether the Go
interface value is nil, and the map `protoToMap` produces for it (`none`
models both a nil argument and a serialization failure, in which case
`protoToMap` returns a nil map). -/
structure RpcValue where
  isNil : Bool
  asMap : Option GoMap

/-- interceptor `protoToMap` on an `RpcValue`: nil values map to nil. -/
def protoToMapVal (v : RpcValue) : Option GoMap :=
  if v.isNil then none else v.asMap

/-- An optional map, or the empty map when absent. -/
def orEmptyMap : Option GoMap → GoMap
  | none => []
  | some m => m

/-- interceptor `InterceptorConfig` (extractors are modelled by passing
their outputs as arguments to `interceptUnary`; the repository and the
sanitizer are modelled by their presence, which is all the interceptor
branches on). -/
structure InterceptorConfig where
  enabled : Bool
  config : Option Config
  hasRepository : Bool
  hasSanitizer : Bool
  includePayload : Bool
  excludedMethods : List GoStr
  includedMethods : List GoStr

/-- models.go `DataChangeLog` (the `Changes`/`ChangesRaw` fields are
commented out in the source). -/
structure DataChangeLog where
  id : GoStr
  domain : GoStr
  entity : GoStr
  operation : GoStr
  primaryKey : Option GoMap
  primaryKeyStr : GoStr
  changeData : Option GoMap
  afterData : Option GoMap
  changedBy : GoStr
  changedByEmail : GoStr
  requestId : GoStr
  ipAddress : GoStr
  userAgent : GoStr
  metadata : GoMap

/-- What one intercepted unary call returns to the client, plus the audit
event handed to `Repository.Save` by the detached goroutine, if any. -/
structure InterceptResult where
  resp : RpcValue
  err : Option GoStr
  saved : Option DataChangeLog

/-- interceptor `inferOperation`: substring matching on the lower-cased
method name, in source order. -/
def inferOperation (methodName : GoStr) : GoStr :=
  let lower := strToLower methodName
  if containsSub lower ( "create".data) || containsSub lower ( "add".data)
      || containsSub lower ( "insert".data) then "CREATE".data
  else if containsSub lower ( "delete".data) || containsSub lower ( "remove".data) then
    "DELETE".data
  else if containsSub lower ( "void".data) then "VOID".data
  else if containsSub lower ( "patch".data) then "PATCH".data
  else if containsSub lower ( "reschedule".data) then "RESCHEDULE".data
  else if containsSub lower ( "update".data) || containsSub lower ( "modify".data)
      || containsSub lower ( "edit".data) then "UPDATE".data
  else "OTHER".data

/-- The domain the interceptor derives from the full method path: lower-case
the second `/`-separated part and take everything before the first dot. -/
def derivedDomain (fullMethod : GoStr) : GoStr :=
  (splitOnChar '.' (strToLower ((splitOnChar '/' fullMethod).getD 1 []))).getD 0 []

/-- The method name the interceptor derives from the full method path: the
third `/`-separated part. -/
def derivedMethodName (fullMethod : GoStr) : GoStr :=
  (splitOnChar '/' fullMethod).getD 2 []

/-- interceptor `shouldLogMethod`: no config means no logging; excluded
methods win; a non-empty included list is authoritative; otherwise the first
entity with this domain must be enabled and list the inferred operation. -/
def shouldLogMethod (cfg : InterceptorConfig) (domain methodName : GoStr) : Bool :=
  match cfg.config with
  | none => false
  | some c =>
    let key := domain ++ '.' :: methodName
    if cfg.excludedMethods.any (fun k => k == key) then false
    else if !cfg.includedMethods.isEmpty then cfg.includedMethods.any (fun k => k == key)
    else
      match findEntityByDomain c.entities domain with
      | none => false
      | some entityCfg =>
        if !entityCfg.enabled then false
        else entityCfg.operations.any (fun op => op == inferOperation methodName)

/-- interceptor `extractPrimaryKey`, composite-key loop: all listed keys
must be present and non-null in the merged map; their `%v` renderings are
collected in order. -/
def collectCompositeValues (dataMap : GoMap) (keys : List GoStr) : Option (List GoStr) :=
  match keys with
  | [] => some []
  | k :: rest =>
    match mapGet dataMap k with
    | some v =>
      if isNullVal v then none
      else
        match collectCompositeValues dataMap rest with
        | some vs => some (goSprintf v :: vs)
        | none => none
    | none => none

/-- The entity configuration `extractPrimaryKey` finds for the domain
(nil when the interceptor has no config). -/
def cfgEntityByDomain (cfg : InterceptorConfig) (domain : GoStr) : Option EntityConfig :=
  match cfg.config with
  | some c => findEntityByDomain c.entities domain
  | none => none

/-- interceptor `extractPrimaryKey`, resolution over the already-merged map
(the function body from the `len(dataMap) == 0` check down): a configured
single key is looked up first, falling through to the composite-key branch;
a missing or null component yields `""`; the separator defaults to `":"`. -/
def resolveFromDataMap (entityCfg : Option EntityConfig) (dataMap : GoMap) : GoStr :=
  if dataMap.length = 0 then []
  else
    let singleRes :=
      match entityCfg with
      | some ec =>
        if ec.primaryKey.singleKey ≠ [] then
          match mapGet dataMap ec.primaryKey.singleKey with
          | some v => if isNullVal v then none else some (goSprintf v)
          | none => none
        else none
      | none => none
    match singleRes with
    | some s => s
    | none =>
      match entityCfg with
      | some ec =>
        if ec.primaryKey.compositeKeys ≠ [] then
          match collectCompositeValues dataMap ec.primaryKey.compositeKeys with
          | some keyValues =>
            let separator :=
              if ec.primaryKey.separator = [] then ( ":".data)
              else ec.primaryKey.separator
            joinSep separator keyValues
          | none => []
        else []
      | none => []

/-- interceptor `extractPrimaryKey`: nil request gives `""`; the request and
response maps are merged (response wins); then `resolveFromDataMap` runs
over the merged map. -/
def extractPrimaryKey (cfg : InterceptorConfig) (domain : GoStr) (req resp : RpcValue) : GoStr :=
  if req.isNil then []
  else
    let reqMap := protoToMapVal req
    let respMap := protoToMapVal resp
    let dataMap0 :=
      match reqMap with
      | some m => m
      | none => []
    let dataMap :=
      match respMap with
      | some m2 => mergeMaps dataMap0 m2
      | none => dataMap0
    resolveFromDataMap (cfgEntityByDomain cfg domain) dataMap

/-- interceptor `parsePrimaryKey`: empty string gives nil, otherwise a
one-entry map under `"value"`. -/
def parsePrimaryKey (pkStr : GoStr) : Option GoMap :=
  if pkStr = [] then none
  else some [( "value".data, GoVal.vStr pkStr)]

/-- The entity rule the sanitization block looks up:
`cfg.Config.GetEntity(domain, entity)`.  The nil-config case cannot be
reached from `interceptUnary` (`shouldLogMethod` requires a config); Go
would dereference a nil `*Config` there. -/
def ruleFor (cfg : InterceptorConfig) (domain entity : GoStr) : Option EntityConfig :=
  match cfg.config with
  | none => none
  | some c => GetEntity c domain entity

/-- interceptor sanitization block (lines 210–217): only when a sanitizer is
configured and the event's after-data is non-nil, look up the entity rule by
`(domain, entity)` and sanitize both sides with that rule's own field sets. -/
def applySanitize (cfg : InterceptorConfig) (domain entity : GoStr) (log : DataChangeLog) :
    DataChangeLog :=
  if cfg.hasSanitizer && log.afterData.isSome then
    match ruleFor cfg domain entity with
    | none => log
    | some entityCfg =>
      { log with
        afterData := SanitizeMap log.afterData entityCfg.excludedFields entityCfg.sensitiveFields
        changeData := SanitizeMap log.changeData entityCfg.excludedFields entityCfg.sensitiveFields }
  else log

/-- interceptor `NewAuditInterceptor`, the returned closure, as a pure
function of the call data.  Quantities the Go code draws from the
environment (UUIDs, clock, extractor outputs) are parameters; the handler is
represented by its result (`hResp`, `hErr`), since every path invokes it
exactly once.  The result carries the response and error returned to the
client and the audit event passed to `Repository.Save`, if one is. -/
def interceptUnary (cfg : InterceptorConfig) (fullMethod : GoStr) (req hResp : RpcValue)
    (hErr : Option GoStr) (freshId requestId userId userEmail ipAddr userAgent : GoStr)
    (durationMs : Int) : InterceptResult :=
  if !cfg.enabled || !cfg.hasRepository then
    { resp := hResp, err := hErr, saved := none }
  else if (splitOnChar '/' fullMethod).length < 3 then
    { resp := hResp, err := hErr, saved := none }
  else
    let domain := derivedDomain fullMethod
    let methodName := derivedMethodName fullMethod
    let entity := capitalizeFirstLetter domain
    if !shouldLogMethod cfg domain methodName then
      { resp := hResp, err := hErr, saved := none }
    else
      let reqData := if cfg.includePayload then protoToMapVal req else none
      match hErr with
      | some e => { resp := hResp, err := some e, saved := none }
      | none =>
        let respData :=
          if cfg.includePayload && !hResp.isNil then protoToMapVal hResp else none
        let operation := inferOperation methodName
        let primaryKey := extractPrimaryKey cfg domain req hResp
        if primaryKey = [] then
          { resp := hResp, err := none, saved := none }
        else
          let beforeData :=
            if operation = ( "CREATE".data) then none
            else if operation = ( "PATCH".data) ∨ operation = ( "RESCHEDULE".data) then
              normalizePatchChangeData reqData
            else reqData
          let afterData := if operation = ( "DELETE".data) then none else respData
          let auditLog : DataChangeLog :=
            { id := freshId
              domain := domain
              entity := methodName
              operation := operation
              primaryKey := parsePrimaryKey primaryKey
              primaryKeyStr := primaryKey
              changeData := beforeData
              afterData := afterData
              changedBy := userId
              changedByEmail := userEmail
              requestId := requestId
              ipAddress := ipAddr
              userAgent := userAgent
              metadata := [( "method".data, GoVal.vStr methodName),
                           ( "duration".data, GoVal.vInt durationMs)] }
          { resp := hResp, err := none, saved := some (applySanitize cfg domain entity auditLog) }

/-! ## Spec-side primary-key resolution (C2)

Written from the words of the claim, to be compared with
`extractPrimaryKey` above. -/

/-- The claim's primary-key rule over the merged request/response map: a
single-key rule yields that field's (non-null) value, a composite rule
yields the components joined in order by the rule's separator (default
`":"`), and a missing single key or composite component yields `""`. -/
def specResolvePrimaryKey (pk : PrimaryKeyConfig) (merged : GoMap) : GoStr :=
  if pk.singleKey ≠ [] then
    match mapGet merged pk.singleKey with
    | some v => if isNullVal v then [] else goSprintf v
    | none => []
  else
    match collectCompositeValues merged pk.compositeKeys with
    | some keyValues =>
      joinSep (if pk.separator = [] then ( ":".data) else pk.separator) keyValues
    | none => []

/-! ## BulkIndexWriter (elasticsearch source file, lines 746–877)

The writer is concurrent; it is embedded as a state machine whose steps are
the atomic actions of the Go code, sequenced by an explicit schedule.  One
worker is modelled (the failing schedule for C9 needs only one).  Events are
identified by numbers; their payload is irrelevant to the counting claim. -/

/-- The observable state of a `BulkIndexWriter` with one worker: the
channel's buffered queue, the worker's local batch, the stop flag, the
status counters, and the batches handed to `saveBatchDirect`.
`acceptedCount`/`rejectedCount` count the `Write` calls that returned nil
resp. an error (`"queue is full"` or `"stopped"`); the Go code keeps no
dropped counter, so the rejected count is part of the model's bookkeeping of
enqueue attempts, not a Go field. -/
structure BulkWriterState where
  batchSize : Nat
  queue : List Nat
  batch : List Nat
  stopped : Bool
  processedCount : Nat
  acceptedCount : Nat
  rejectedCount : Nat
  flushed : List (List Nat)

/-- `NewBulkIndexWriter`: queue capacity is `batchSize * 2`. -/
def writerCapacity (s : BulkWriterState) : Nat :=
  s.batchSize * 2

/-- `NewBulkIndexWriter` + `Start`: empty queue and batch, zero counters. -/
def writerInit (batchSize : Nat) : BulkWriterState :=
  { batchSize := batchSize
    queue := []
    batch := []
    stopped := false
    processedCount := 0
    acceptedCount := 0
    rejectedCount := 0
    flushed := [] }

/-- `Write`: non-blocking select.  With room in the buffered channel the
send succeeds; otherwise (or after `close(stopChan)`, where the model
resolves Go's nondeterministic select to the stop branch; the claim's
schedules place every write before the close) the call returns an error and
the event is dropped. -/
def writerWrite (s : BulkWriterState) (e : Nat) : BulkWriterState :=
  if s.stopped then { s with rejectedCount := s.rejectedCount + 1 }
  else if s.queue.length < writerCapacity s then
    { s with queue := s.queue ++ [e], acceptedCount := s.acceptedCount + 1 }
  else { s with rejectedCount := s.rejectedCount + 1 }

/-- `worker`, queue case: move one event from the queue to the local batch;
at `batchSize` the batch is flushed via `saveBatchDirect` and
`ProcessedCount` is increased by the batch length. -/
def workerRecv (s : BulkWriterState) : BulkWriterState :=
  match s.queue with
  | [] => s
  | e :: rest =>
    let batch2 := s.batch ++ [e]
    if s.batchSize ≤ batch2.length then
      { s with
        queue := rest
        batch := []
        processedCount := s.processedCount + batch2.length
        flushed := s.flushed ++ [batch2] }
    else { s with queue := rest, batch := batch2 }

/-- `worker`, ticker case: flush a non-empty batch and count it. -/
def workerTick (s : BulkWriterState) : BulkWriterState :=
  if s.batch.isEmpty then s
  else
    { s with
      batch := []
      processedCount := s.processedCount + s.batch.length
      flushed := s.flushed ++ [s.batch] }

/-- `Close` → `Flush` → `close(stopChan)` and the worker's stop case: the
remaining local batch is flushed via `saveBatchDirect` but `ProcessedCount`
is not updated, the worker returns, and whatever is still in the queue is
abandoned. -/
def writerClose (s : BulkWriterState) : BulkWriterState :=
  let s2 := { s with stopped := true }
  if s2.batch.isEmpty then s2
  else { s2 with batch := [], flushed := s2.flushed ++ [s2.batch] }

/-- One scheduled action of the writer system. -/
inductive WriterOp where
  | write (e : Nat)
  | recv
  | tick
  | close

/-- Run a schedule of writer actions from a state. -/
def writerRun (s : BulkWriterState) : List WriterOp → BulkWriterState
  | [] => s
  | op :: rest =>
    writerRun
      (match op with
       | WriterOp.write e => writerWrite s e
       | WriterOp.recv => workerRecv s
       | WriterOp.tick => workerTick s
       | WriterOp.close => writerClose s)
      rest

/-- The C9 failing schedule: `batchSize = 2`, one successful `Write`, the
worker moves the event into its batch (no size- or tick-flush fires), then
`Close`. -/
def c9Final : BulkWriterState :=
  writerRun (writerInit 2) [WriterOp.write 0, WriterOp.recv, WriterOp.close]

/-! ## Remaining definitions for concrete scenarios -/

/-- Does one item of a PATCH `data` array write the field `f` when
flattened?  (It does when it is a map with a string `"field"` equal to `f`
and a present `"value"`.) -/
def patchItemWrites (item : GoVal) (f : GoStr) : Bool :=
  match item with
  | GoVal.vMap m =>
    match mapGet m ( "field".data) with
    | some (GoVal.vStr g) =>
      match mapGet m ( "value".data) with
      | some _ => g == f
      | none => false
    | _ => false
  | _ => false

/-- Does some item of a PATCH `data` array write the field `f`? -/
def patchItemWritesField (items : List GoVal) (f : GoStr) : Bool :=
  items.any (fun item => patchItemWrites item f)

/-- An Elasticsearch section with the `setDefaults` values relevant here. -/
def esCfgDefault : ElasticsearchCfg :=
  { enabled := true
    indexPrefixStr := defaultIndexPrefix
    indexPattern := defaultIndexPattern
    numWorkers := 4
    bulkSize := 100 }

/-- A global section with empty field sets. -/
def globalEmpty : GlobalConfig :=
  { enabled := true
    excludedFields := []
    sensitiveFields := []
    includeBeforeData := true
    includeAfterData := true }

/-- Configuration used for the C8 evaluation: defaults everywhere. -/
def c8Config : Config :=
  { elasticsearch := esCfgDefault, entities := [], globalCfg := globalEmpty }

/-- Entity rule for the appointment domain: DELETE enabled, single key
`id`, sensitive field `name`. -/
def apptDeleteRule : EntityConfig :=
  { domain := "appointment".data
    entity := "Appointment".data
    enabled := true
    operations := [ "DELETE".data]
    primaryKey := { singleKey := "id".data, compositeKeys := [], separator := [] }
    excludedFields := []
    sensitiveFields := [ "name".data]
    includeBeforeData := true
    includeAfterData := true }

/-- Interceptor configuration around `apptDeleteRule`. -/
def c4Cfg : InterceptorConfig :=
  { enabled := true
    config := some { elasticsearch := esCfgDefault, entities := [apptDeleteRule], globalCfg := globalEmpty }
    hasRepository := true
    hasSanitizer := true
    includePayload := true
    excludedMethods := []
    includedMethods := [] }

/-- Request carrying the sensitive field `name`. -/
def c4Req : RpcValue :=
  { isNil := false
    asMap := some [( "id".data, GoVal.vStr ( "A1".data)), ( "name".data, GoVal.vStr ( "Alice".data))] }

/-- Response carrying only the key. -/
def c4Resp : RpcValue :=
  { isNil := false, asMap := some [( "id".data, GoVal.vStr ( "A1".data))] }

/-- Full method path of the DELETE call. -/
def c4Method : GoStr := "/appointment.AppointmentService/DeleteAppointment".data

/-- The intercepted DELETE call of the C4 scenario. -/
def c4Result : InterceptResult :=
  interceptUnary c4Cfg c4Method c4Req c4Resp none ( "id-1".data) ( "rq-1".data)
    ( "u1".data) ( "u1@h.test".data) ( "1.2.3.4".data) ( "ua".data) 5

/-- Entity rule for the appointment domain with UPDATE enabled. -/
def apptUpdateRule : EntityConfig :=
  { domain := "appointment".data
    entity := "Appointment".data
    enabled := true
    operations := [ "UPDATE".data]
    primaryKey := { singleKey := "id".data, compositeKeys := [], separator := [] }
    excludedFields := []
    sensitiveFields := []
    includeBeforeData := true
    includeAfterData := true }

/-- Interceptor configuration around `apptUpdateRule`. -/
def c7Cfg : InterceptorConfig :=
  { enabled := true
    config := some { elasticsearch := esCfgDefault, entities := [apptUpdateRule], globalCfg := globalEmpty }
    hasRepository := true
    hasSanitizer := true
    includePayload := true
    excludedMethods := []
    includedMethods := [] }

/-- Full method path of the UPDATE call. -/
def c7Method : GoStr := "/appointment.AppointmentService/UpdateAppointment".data

/-- The intercepted UPDATE call of the C7 scenario. -/
def c7Result : InterceptResult :=
  interceptUnary c7Cfg c7Method c4Req c4Resp none ( "id-2".data) ( "rq-2".data)
    ( "u1".data) ( "u1@h.test".data) ( "1.2.3.4".data) ( "ua".data) 7

/-- Entity rule for the patient domain: composite key, default separator. -/
def patientRule : EntityConfig :=
  { domain := "patient".data
    entity := "Patient".data
    enabled := true
    operations := [ "DELETE".data]
    primaryKey := { singleKey := [], compositeKeys := [ "patient_no".data, "bu_code".data], separator := [] }
    excludedFields := []
    sensitiveFields := []
    includeBeforeData := true
    includeAfterData := true }

/-- Interceptor configuration around `patientRule`. -/
def c2Cfg : InterceptorConfig :=
  { enabled := true
    config := some { elasticsearch := esCfgDefault, entities := [patientRule], globalCfg := globalEmpty }
    hasRepository := true
    hasSanitizer := true
    includePayload := true
    excludedMethods := []
    includedMethods := [] }

/-- Request of the composite-key scenario. -/
def c2Req : RpcValue :=
  { isNil := false
    asMap := some [( "patient_no".data, GoVal.vStr ( "P7".data)), ( "bu_code".data, GoVal.vStr ( "BU1".data))] }

/-- Response of the composite-key scenario (empty reply message). -/
def c2Resp : RpcValue :=
  { isNil := false, asMap := some [] }

/-- Full method path of the composite-key scenario. -/
def c2Method : GoStr := "/patient.PatientService/DeletePatient".data

/-! ## Theorems -/

/-- The source's `redactString` computes exactly the mask described by the
spec sentence (`specMask`). -/
theorem redactString_eq_specMask (s : GoStr) : redactString s = specMask s := by
  unfold redactString specMask redactionChar
  by_cases h0 : s.length = 0
  · have hs : s = [] := List.eq_nil_of_length_eq_zero h0
    subst hs
    rfl
  · simp only [h0, if_false]
    by_cases h4 : s.length ≤ 4
    · simp [h4]
    · simp only [h4, if_false]
      have harith :
          s.length - max 2 ((s.length + 4) / 5) / 2
              - (max 2 ((s.length + 4) / 5) - max 2 ((s.length + 4) / 5) / 2)
            = s.length - max 2 ((s.length + 4) / 5) := by
        omega
      rw [harith]

/-- C5 counterexample: a sensitive field bound to JSON null is left as null
by the sanitizer, not replaced by the literal `"****"`, refuting the claim
that every non-string sensitive value becomes `"****"`. -/
theorem C5_counterexample :
    sanitizeEntries [( "password".data, GoVal.vNull)] [] [ "password".data]
      = [( "password".data, GoVal.vNull)]
    ∧ GoVal.vNull ≠ GoVal.vStr ( "****".data) := by
  constructor
  · rfl
  · intro h
    exact GoVal.noConfusion h

/-- C5 (amended): sensitive string and byte values of length `n ≤ 4` become
`'*'` repeated `n` times; longer ones keep `v = max(2, ⌈n·0.2⌉)` visible
characters (`⌊v/2⌋` prefix, `v − ⌊v/2⌋` suffix, `'*'` in the middle); every
non-null, non-string sensitive value becomes the literal `"****"`; a null
sensitive value stays null. -/
theorem C5_sanitize_value_matches_spec :
    ∀ v : GoVal, SanitizeValue v = specSanitizeValue v := by
  intro v
  cases v <;> simp [SanitizeValue, specSanitizeValue, redactString_eq_specMask]

/-- C8: evaluating the index-name generator on the `setDefaults`
configuration (`"\x7bprefix\x7d-\x7bdomain\x7d-\x7byyyy.MM\x7d"` with prefix
`"audit-log"`): the `\x7byyyy.MM\x7d` group matches neither `\x7byyyy\x7d`
nor `\x7bMM\x7d`, so the generated name retains a braced placeholder,
contradicting the claim that the default pattern expands with no remaining
braced placeholder. -/
theorem C8_default_pattern_leaves_placeholder :
    GetIndexName c8Config ( "appointment".data) 2025 10 11
      = ( "audit-log-appointment-\x7byyyy.MM\x7d".data)
    ∧ containsSub (GetIndexName c8Config ( "appointment".data) 2025 10 11)
        ( "\x7byyyy.MM\x7d".data) = true := by
  exact ⟨rfl, rfl⟩

/-- C9: the failing schedule.  One enqueue attempt succeeds
(`accepted + rejected = 1`), the worker buffers the event, and `Close`
flushes it to `saveBatchDirect` (`flushed = [[0]]`) — but the shutdown flush
never updates `ProcessedCount`, so `processedCount + rejectedCount = 0 ≠ 1`,
contradicting the claim that after `K` enqueue attempts and a close every
event is accounted for in `processedCount` plus the rejected count. -/
theorem C9_shutdown_flush_uncounted :
    c9Final.acceptedCount + c9Final.rejectedCount = 1
    ∧ c9Final.processedCount = 0
    ∧ c9Final.rejectedCount = 0
    ∧ c9Final.flushed = [[0]]
    ∧ c9Final.queue = [] := by
  exact ⟨rfl, rfl, rfl, rfl, rfl⟩

/-- C10 counterexample: a `data` array item `\x7bfield: "data", value: 1\x7d`
re-inserts the top-level key `"data"`, refuting the claim that the output of
`normalizePatchChangeData` never contains that key. -/
theorem C10_counterexample :
    normalizePatchChangeData (some [( "data".data,
        GoVal.vArr [GoVal.vMap [( "field".data, GoVal.vStr ( "data".data)),
                                ( "value".data, GoVal.vInt 1)]])])
      = some [( "data".data, GoVal.vInt 1)]
    ∧ mapHas [( "data".data, GoVal.vInt 1)] ( "data".data) = true := by
  exact ⟨rfl, rfl⟩

/-- C1: whatever the configuration, method path, request and handler outcome,
the interceptor returns the handler's response value and error unchanged. -/
theorem C1_response_and_error_identity (cfg : InterceptorConfig) (fullMethod : GoStr)
    (req hResp : RpcValue) (hErr : Option GoStr)
    (freshId requestId userId userEmail ipAddr userAgent : GoStr) (durationMs : Int) :
    (interceptUnary cfg fullMethod req hResp hErr freshId requestId userId userEmail
        ipAddr userAgent durationMs).resp = hResp
    ∧ (interceptUnary cfg fullMethod req hResp hErr freshId requestId userId userEmail
        ipAddr userAgent durationMs).err = hErr := by
  unfold interceptUnary
  refine ⟨?_, ?_⟩ <;> (repeat' split) <;>
    simp_all [apply_ite (fun r : InterceptResult => InterceptResult.resp r),
      apply_ite (fun r : InterceptResult => InterceptResult.err r)]

/-- C3: a failing handler makes the interceptor return the error unchanged
and hand nothing to the repository. -/
theorem C3_handler_error_no_event (cfg : InterceptorConfig) (fullMethod : GoStr)
    (req hResp : RpcValue) (hErr : Option GoStr)
    (freshId requestId userId userEmail ipAddr userAgent : GoStr) (durationMs : Int)
    (e : GoStr) (h : hErr = some e) :
    interceptUnary cfg fullMethod req hResp hErr freshId requestId userId userEmail
        ipAddr userAgent durationMs
      = { resp := hResp, err := some e, saved := none } := by
  subst h
  unfold interceptUnary
  repeat' split
  all_goals simp_all

/-- Witness for C3 at a concrete erroring call. -/
theorem C3_witness :
    interceptUnary c4Cfg c4Method c4Req c4Resp (some ( "boom".data)) ( "id-3".data)
        ( "rq-3".data) ( "u1".data) ( "u1@h.test".data) ( "1.2.3.4".data) ( "ua".data) 9
      = { resp := c4Resp, err := some ( "boom".data), saved := none } :=
  C3_handler_error_no_event c4Cfg c4Method c4Req c4Resp (some ( "boom".data)) ( "id-3".data)
    ( "rq-3".data) ( "u1".data) ( "u1@h.test".data) ( "1.2.3.4".data) ( "ua".data) 9
    ( "boom".data) rfl

/-- Filtering out a key leaves a map without that key. -/
theorem mapHas_filter_ne (m : GoMap) (k : GoStr) :
    mapHas (m.filter (fun kv => kv.1 != k)) k = false := by
  induction m with
  | nil => rfl
  | cons kv rest ih =>
    by_cases h : kv.1 = k
    · simp [List.filter_cons, h, ih]
    · simp [List.filter_cons, h, mapHas, List.any_cons, ih]

/-- Key presence after a Go map insert. -/
theorem mapHas_mapSet (m : GoMap) (f k : GoStr) (v : GoVal) :
    mapHas (mapSet m f v) k = (mapHas m k || (f == k)) := by
  unfold mapSet
  by_cases hf : mapHas m f = true
  · simp only [hf, if_true]
    have hkeys :
        mapHas (m.map (fun kv => if kv.1 = f then (kv.1, v) else kv)) k = mapHas m k := by
      unfold mapHas
      rw [List.any_map]
      congr 1
      funext kv
      by_cases h1 : kv.1 = f <;> simp [h1, Function.comp]
    rw [hkeys]
    by_cases hfk : f = k
    · subst hfk
      simp [hf]
    · simp [hfk]
  · simp only [hf, if_false]
    unfold mapHas
    simp [List.any_append]

/-- The PATCH flattening loop cannot introduce a key none of its items
writes. -/
theorem flatten_preserves_absence (items : List GoVal) (out : GoMap) (k : GoStr)
    (hitems : patchItemWritesField items k = false) (hout : mapHas out k = false) :
    mapHas (flattenPatchItems out items) k = false := by
  induction items generalizing out with
  | nil => exact hout
  | cons item rest ih =>
    simp only [patchItemWritesField, List.any_cons, Bool.or_eq_false_iff] at hitems
    obtain ⟨h1, h2⟩ := hitems
    have h2' : patchItemWritesField rest k = false := h2
    cases item with
    | vMap mm =>
      simp only [flattenPatchItems]
      rcases hfld : mapGet mm ( "field".data) with _ | fv
      · exact ih _ h2' hout
      · cases fv with
        | vStr g =>
          rcases hval : mapGet mm ( "value".data) with _ | v0
          · exact ih _ h2' hout
          · have hg : (g == k) = false := by
              simpa [patchItemWrites, hfld, hval] using h1
            refine ih _ h2' ?_
            show mapHas (mapSet out g v0) k = false
            rw [mapHas_mapSet, hout, hg]
            rfl
        | vNull => exact ih _ h2' hout
        | vBool b => exact ih _ h2' hout
        | vInt n => exact ih _ h2' hout
        | vBytes s => exact ih _ h2' hout
        | vArr a => exact ih _ h2' hout
        | vMap m2 => exact ih _ h2' hout
    | vNull => exact ih _ h2' hout
    | vBool b => exact ih _ h2' hout
    | vInt n => exact ih _ h2' hout
    | vStr s => exact ih _ h2' hout
    | vBytes s => exact ih _ h2' hout
    | vArr a => exact ih _ h2' hout

/-- C10 (amended): a nil map stays nil; the output of
`normalizePatchChangeData` contains the top-level key `"data"` only when an
item of the `data` array itself writes the field `"data"` (a map item with
`field = "data"` and a present `value`); and a `"data"` value of any
non-array shape is silently removed with all other top-level fields
preserved. -/
theorem C10_normalize_patch_no_data_key (m : GoMap)
    (h : ∀ items, mapGet m ( "data".data) = some (GoVal.vArr items) →
        patchItemWritesField items ( "data".data) = false) :
    normalizePatchChangeData none = none
    ∧ (∀ mm, normalizePatchChangeData (some m) = some mm →
        mapHas mm ( "data".data) = false)
    ∧ (∀ v, mapGet m ( "data".data) = some v → (∀ items, v ≠ GoVal.vArr items) →
        normalizePatchChangeData (some m)
          = some (m.filter (fun kv => kv.1 != ( "data".data)))) := by
  refine ⟨rfl, ?_, ?_⟩
  · intro mm hmm
    simp only [normalizePatchChangeData] at hmm
    rcases hget : mapGet m ( "data".data) with _ | raw
    · rw [hget] at hmm
      have hsome := Option.some.inj hmm
      subst hsome
      exact mapHas_filter_ne m _
    · rw [hget] at hmm
      cases raw with
      | vArr items =>
        have hsome := Option.some.inj hmm
        subst hsome
        exact flatten_preserves_absence items _ _ (h items hget) (mapHas_filter_ne m _)
      | vNull =>
        have hsome := Option.some.inj hmm
        subst hsome
        exact mapHas_filter_ne m _
      | vBool b =>
        have hsome := Option.some.inj hmm
        subst hsome
        exact mapHas_filter_ne m _
      | vInt n =>
        have hsome := Option.some.inj hmm
        subst hsome
        exact mapHas_filter_ne m _
      | vStr s =>
        have hsome := Option.some.inj hmm
        subst hsome
        exact mapHas_filter_ne m _
      | vBytes s =>
        have hsome := Option.some.inj hmm
        subst hsome
        exact mapHas_filter_ne m _
      | vMap m2 =>
        have hsome := Option.some.inj hmm
        subst hsome
        exact mapHas_filter_ne m _
  · intro v hv hnot
    simp only [normalizePatchChangeData]
    rw [hv]
    cases v with
    | vArr items => exact absurd rfl (hnot items)
    | vNull => rfl
    | vBool b => rfl
    | vInt n => rfl
    | vStr s => rfl
    | vBytes s => rfl
    | vMap m2 => rfl

/-- Witness for C10 at a concrete map whose `data` value is a plain string:
the normalized output lacks the `data` key. -/
theorem C10_witness :
    mapHas ([( "a".data, GoVal.vStr ( "b".data)),
             ( "data".data, GoVal.vStr ( "zz".data))].filter
        (fun kv => kv.1 != ( "data".data))) ( "data".data) = false := by
  have h := C10_normalize_patch_no_data_key
      [( "a".data, GoVal.vStr ( "b".data)), ( "data".data, GoVal.vStr ( "zz".data))]
      (fun items hx => GoVal.noConfusion (Option.some.inj hx))
  exact h.2.1 _ (h.2.2 (GoVal.vStr ( "zz".data)) rfl (fun items hx => GoVal.noConfusion hx))

/-- C4 counterexample: an intercepted DELETE call whose request carries the
entity rule's sensitive field `name`.  Because the DELETE event's afterData
is nil, the sanitization block is skipped entirely and the stored
changeData still holds the raw value `"Alice"`, which differs from its
mask — refuting the claim that every created event (including DELETE) has
both sides sanitized. -/
theorem C4_counterexample :
    (c4Result.saved.map (fun l => (l.operation, l.changeData, l.afterData)))
      = some ( "DELETE".data,
          some [( "id".data, GoVal.vStr ( "A1".data)),
                ( "name".data, GoVal.vStr ( "Alice".data))],
          none)
    ∧ lowerMem ( "name".data) apptDeleteRule.sensitiveFields = true
    ∧ redactString ( "Alice".data) ≠ ( "Alice".data) := by
  refine ⟨rfl, rfl, by decide⟩

/-- C4 (amended): sanitization runs only when the event's afterData is
non-nil — DELETE events are saved with both sides unsanitized — and when it
runs, both afterData and changeData are sanitized using only the matched
entity rule's own excluded and sensitive field sets (the rule found by
`GetEntity` on the capitalized domain), not their union with the global
sets. -/
theorem C4_sanitization_scope (cfg : InterceptorConfig) (c : Config)
    (domain entity : GoStr) (ec : EntityConfig) (log : DataChangeLog)
    (hs : cfg.hasSanitizer = true) (hc : cfg.config = some c)
    (he : GetEntity c domain entity = some ec) :
    (log.afterData = none → applySanitize cfg domain entity log = log)
    ∧ (log.afterData ≠ none →
        applySanitize cfg domain entity log
          = { log with
              afterData := SanitizeMap log.afterData ec.excludedFields ec.sensitiveFields
              changeData := SanitizeMap log.changeData ec.excludedFields ec.sensitiveFields }) := by
  constructor
  · intro hnone
    unfold applySanitize
    simp [hnone]
  · intro hsome
    have hcond : (cfg.hasSanitizer && log.afterData.isSome) = true := by
      simp [hs, Option.isSome_iff_ne_none, hsome]
    have hr : ruleFor cfg domain entity = some ec := by
      unfold ruleFor
      rw [hc]
      exact he
    unfold applySanitize
    rw [if_pos hcond, hr]

/-- Witness for C4 at a concrete DELETE-shaped event (afterData nil): the
sanitization block leaves it untouched. -/
theorem C4_witness :
    applySanitize c4Cfg ( "appointment".data) ( "Appointment".data)
        { id := []
          domain := "appointment".data
          entity := "DeleteAppointment".data
          operation := "DELETE".data
          primaryKey := none
          primaryKeyStr := "A1".data
          changeData := some [( "name".data, GoVal.vStr ( "Alice".data))]
          afterData := none
          changedBy := []
          changedByEmail := []
          requestId := []
          ipAddress := []
          userAgent := []
          metadata := [] }
      = { id := []
          domain := "appointment".data
          entity := "DeleteAppointment".data
          operation := "DELETE".data
          primaryKey := none
          primaryKeyStr := "A1".data
          changeData := some [( "name".data, GoVal.vStr ( "Alice".data))]
          afterData := none
          changedBy := []
          changedByEmail := []
          requestId := []
          ipAddress := []
          userAgent := []
          metadata := [] } :=
  (C4_sanitization_scope c4Cfg _ ( "appointment".data) ( "Appointment".data) apptDeleteRule
    _ rfl rfl rfl).1 rfl

/-- C7 counterexample: an intercepted UPDATE call on
`/appointment.AppointmentService/UpdateAppointment`.  The derived domain is
`"appointment"` and its capitalization is `"Appointment"`, but the stored
event's entity field is the method name `"UpdateAppointment"` — refuting the
claim that the stored entity equals the capitalized domain. -/
theorem C7_counterexample :
    derivedDomain c7Method = ( "appointment".data)
    ∧ capitalizeFirstLetter ( "appointment".data) = ( "Appointment".data)
    ∧ (c7Result.saved.map (fun l => l.entity)) = some ( "UpdateAppointment".data)
    ∧ ( "UpdateAppointment".data) ≠ ( "Appointment".data) := by
  refine ⟨rfl, rfl, rfl, by decide⟩

/-- The sanitization block never changes the event's domain or entity. -/
theorem applySanitize_preserves_fields (cfg : InterceptorConfig) (domain entity : GoStr)
    (log : DataChangeLog) :
    (applySanitize cfg domain entity log).domain = log.domain
    ∧ (applySanitize cfg domain entity log).entity = log.entity := by
  unfold applySanitize
  by_cases hcond : (cfg.hasSanitizer && log.afterData.isSome) = true
  · rw [if_pos hcond]
    cases hr : ruleFor cfg domain entity with
    | none => exact ⟨rfl, rfl⟩
    | some ec => exact ⟨rfl, rfl⟩
  · rw [if_neg hcond]
    exact ⟨rfl, rfl⟩

/-- C7 (amended): on every stored event the domain field is the lowercased
first dotted segment of the package and the entity field is the RPC method
name; the capitalized domain is used only to look up the sanitization rule,
not stored. -/
theorem C7_saved_entity_is_method_name (cfg : InterceptorConfig) (fullMethod : GoStr)
    (req hResp : RpcValue) (hErr : Option GoStr)
    (freshId requestId userId userEmail ipAddr userAgent : GoStr) (durationMs : Int)
    (log : DataChangeLog)
    (h : (interceptUnary cfg fullMethod req hResp hErr freshId requestId userId userEmail
        ipAddr userAgent durationMs).saved = some log) :
    log.domain = derivedDomain fullMethod ∧ log.entity = derivedMethodName fullMethod := by
  unfold interceptUnary at h
  dsimp only at h
  repeat' split at h
  any_goals exact Option.noConfusion h
  all_goals
    (have hX := Option.some.inj h
     subst hX
     exact ⟨((applySanitize_preserves_fields cfg _ _ _).1).trans rfl,
       ((applySanitize_preserves_fields cfg _ _ _).2).trans rfl⟩)

/-- Witness for C7 at the concrete UPDATE call: the saved event's domain and
entity fields. -/
theorem C7_witness :
    ({ id := "id-2".data
       domain := "appointment".data
       entity := "UpdateAppointment".data
       operation := "UPDATE".data
       primaryKey := some [( "value".data, GoVal.vStr ( "A1".data))]
       primaryKeyStr := "A1".data
       changeData := some [( "id".data, GoVal.vStr ( "A1".data)),
                           ( "name".data, GoVal.vStr ( "Alice".data))]
       afterData := some [( "id".data, GoVal.vStr ( "A1".data))]
       changedBy := "u1".data
       changedByEmail := "u1@h.test".data
       requestId := "rq-2".data
       ipAddress := "1.2.3.4".data
       userAgent := "ua".data
       metadata := [( "method".data, GoVal.vStr ( "UpdateAppointment".data)),
                    ( "duration".data, GoVal.vInt 7)] } : DataChangeLog).domain
        = derivedDomain c7Method
    ∧ ({ id := "id-2".data
         domain := "appointment".data
         entity := "UpdateAppointment".data
         operation := "UPDATE".data
         primaryKey := some [( "value".data, GoVal.vStr ( "A1".data))]
         primaryKeyStr := "A1".data
         changeData := some [( "id".data, GoVal.vStr ( "A1".data)),
                             ( "name".data, GoVal.vStr ( "Alice".data))]
         afterData := some [( "id".data, GoVal.vStr ( "A1".data))]
         changedBy := "u1".data
         changedByEmail := "u1@h.test".data
         requestId := "rq-2".data
         ipAddress := "1.2.3.4".data
         userAgent := "ua".data
         metadata := [( "method".data, GoVal.vStr ( "UpdateAppointment".data)),
                      ( "duration".data, GoVal.vInt 7)] } : DataChangeLog).entity
        = derivedMethodName c7Method :=
  C7_saved_entity_is_method_name c7Cfg c7Method c4Req c4Resp none ( "id-2".data) ( "rq-2".data)
    ( "u1".data) ( "u1@h.test".data) ( "1.2.3.4".data) ( "ua".data) 7 _ rfl

/-- C6 counterexample: a map inside a list inside a list.  `sanitizeSlice`
passes non-map list elements (including nested lists) through unchanged, so
the excluded key `secret` survives at depth — refuting the claim that the
output contains no excluded key at any nesting depth including lists nested
in lists. -/
theorem C6_counterexample :
    sanitizeEntries
        [( "a".data, GoVal.vArr [GoVal.vArr [GoVal.vMap [( "secret".data, GoVal.vStr ( "x".data))]]])]
        [ "secret".data] []
      = [( "a".data, GoVal.vArr [GoVal.vArr [GoVal.vMap [( "secret".data, GoVal.vStr ( "x".data))]]])]
    ∧ hasFieldDeepEntries
        (sanitizeEntries
          [( "a".data, GoVal.vArr [GoVal.vArr [GoVal.vMap [( "secret".data, GoVal.vStr ( "x".data))]]])]
          [ "secret".data] [])
        [ "secret".data] = true := by
  exact ⟨rfl, rfl⟩

/-- A masked value carries no map keys at all. -/
theorem sanVal_no_fields (v : GoVal) (ex : List GoStr) :
    hasFieldDeepVal (SanitizeValue v) ex = false := by
  cases v <;> rfl

/-! Over trees with no list directly inside a list, the sanitizer output has
no excluded key at any depth (mutually with the nested-value and
list-element forms). -/
mutual

theorem sanNoExEntries : ∀ (m : GoMap) (ex sens : List GoStr),
    listFreeEntries m = true →
    hasFieldDeepEntries (sanitizeEntries m ex sens) ex = false
  | [], _, _, _ => rfl
  | (k, v) :: rest, ex, sens, h => by
    simp only [listFreeEntries, Bool.and_eq_true] at h
    obtain ⟨hv, hrest⟩ := h
    simp only [sanitizeEntries]
    by_cases hex : lowerMem k ex = true
    · rw [if_pos hex]
      exact sanNoExEntries rest ex sens hrest
    · rw [if_neg hex]
      have hkf : lowerMem k ex = false := Bool.eq_false_iff.mpr hex
      by_cases hsens : lowerMem k sens = true
      · rw [if_pos hsens]
        simp only [hasFieldDeepEntries, hkf, sanVal_no_fields,
          sanNoExEntries rest ex sens hrest, Bool.or_self, Bool.or_false, Bool.false_or]
      · rw [if_neg hsens]
        simp only [hasFieldDeepEntries, hkf, sanNoExNested v ex sens hv,
          sanNoExEntries rest ex sens hrest, Bool.or_self, Bool.or_false, Bool.false_or]

theorem sanNoExNested : ∀ (v : GoVal) (ex sens : List GoStr),
    listFreeVal v = true →
    hasFieldDeepVal (sanitizeNested v ex sens) ex = false
  | GoVal.vNull, _, _, _ => rfl
  | GoVal.vBool _, _, _, _ => rfl
  | GoVal.vInt _, _, _, _ => rfl
  | GoVal.vStr _, _, _, _ => rfl
  | GoVal.vBytes _, _, _, _ => rfl
  | GoVal.vMap m, ex, sens, h => by
    simp only [listFreeVal] at h
    simp only [sanitizeNested, hasFieldDeepVal]
    exact sanNoExEntries m ex sens h
  | GoVal.vArr a, ex, sens, h => by
    simp only [listFreeVal] at h
    simp only [sanitizeNested, hasFieldDeepVal]
    exact sanNoExElems a ex sens h

theorem sanNoExElems : ∀ (l : List GoVal) (ex sens : List GoStr),
    listFreeElems l = true →
    hasFieldDeepElems (sanitizeSliceGo l ex sens) ex = false
  | [], _, _, _ => rfl
  | GoVal.vNull :: rest, ex, sens, h => by
    simp only [listFreeElems, listFreeVal, Bool.and_eq_true, true_and] at h
    simp only [sanitizeSliceGo, hasFieldDeepElems, hasFieldDeepVal, Bool.false_or]
    exact sanNoExElems rest ex sens h
  | GoVal.vBool b :: rest, ex, sens, h => by
    simp only [listFreeElems, listFreeVal, Bool.and_eq_true, true_and] at h
    simp only [sanitizeSliceGo, hasFieldDeepElems, hasFieldDeepVal, Bool.false_or]
    exact sanNoExElems rest ex sens h
  | GoVal.vInt n :: rest, ex, sens, h => by
    simp only [listFreeElems, listFreeVal, Bool.and_eq_true, true_and] at h
    simp only [sanitizeSliceGo, hasFieldDeepElems, hasFieldDeepVal, Bool.false_or]
    exact sanNoExElems rest ex sens h
  | GoVal.vStr s :: rest, ex, sens, h => by
    simp only [listFreeElems, listFreeVal, Bool.and_eq_true, true_and] at h
    simp only [sanitizeSliceGo, hasFieldDeepElems, hasFieldDeepVal, Bool.false_or]
    exact sanNoExElems rest ex sens h
  | GoVal.vBytes s :: rest, ex, sens, h => by
    simp only [listFreeElems, listFreeVal, Bool.and_eq_true, true_and] at h
    simp only [sanitizeSliceGo, hasFieldDeepElems, hasFieldDeepVal, Bool.false_or]
    exact sanNoExElems rest ex sens h
  | GoVal.vArr a :: rest, ex, sens, h => by
    simp only [listFreeElems] at h
    exact Bool.noConfusion h
  | GoVal.vMap m :: rest, ex, sens, h => by
    simp only [listFreeElems, listFreeVal, Bool.and_eq_true] at h
    obtain ⟨hm, hrest⟩ := h
    simp only [sanitizeSliceGo, hasFieldDeepElems, hasFieldDeepVal]
    simp only [sanNoExEntries m ex sens hm, sanNoExElems rest ex sens hrest, Bool.or_self]

end

/-- C6 (amended): for every document tree in which no list occurs directly
inside a list, and every pair of field sets, the output of
`Sanitizer.SanitizeMap` contains no key matching an excluded field
(case-insensitively) at any nesting depth — maps nested in maps and maps
that are direct elements of lists included; a list directly inside a list is
passed through `sanitizeSlice` unchanged, which is why the guard is needed.
The input tree is never mutated (the embedding is pure; the Go code builds
fresh maps). -/
theorem C6_no_excluded_keys (m : GoMap) (ex sens : List GoStr)
    (h : listFreeEntries m = true) :
    hasFieldDeepEntries (sanitizeEntries m ex sens) ex = false :=
  sanNoExEntries m ex sens h

/-- Witness for C6 at a concrete tree with a map inside a list and a
sensitive-free excluded field. -/
theorem C6_witness :
    hasFieldDeepEntries
        (sanitizeEntries
          [( "a".data, GoVal.vArr [GoVal.vMap [( "secret".data, GoVal.vStr ( "x".data))]]),
           ( "secret".data, GoVal.vStr ( "y".data))]
          [ "secret".data] [])
        [ "secret".data] = false :=
  C6_no_excluded_keys _ _ _ rfl

/-- For a well-formed rule (exactly one of single/composite set), the
source's resolution over a merged map computes exactly the claim's
resolution rule. -/
theorem resolveFromDataMap_spec (ec : EntityConfig) (dm : GoMap)
    (hwf : ec.primaryKey.singleKey = [] ↔ ec.primaryKey.compositeKeys ≠ []) :
    resolveFromDataMap (some ec) dm = specResolvePrimaryKey ec.primaryKey dm := by
  unfold resolveFromDataMap specResolvePrimaryKey
  by_cases hlen : dm.length = 0
  · rw [if_pos hlen]
    have hdm : dm = [] := List.eq_nil_of_length_eq_zero hlen
    subst hdm
    by_cases hsk : ec.primaryKey.singleKey ≠ []
    · rw [if_pos hsk]
      rfl
    · rw [if_neg hsk]
      cases hck : ec.primaryKey.compositeKeys with
      | nil => rfl
      | cons a l => rfl
  · rw [if_neg hlen]
    by_cases hsk : ec.primaryKey.singleKey ≠ []
    · have hck : ec.primaryKey.compositeKeys = [] := by
        by_contra hne
        exact hsk (hwf.mpr hne)
      cases hmg : mapGet dm ec.primaryKey.singleKey with
      | none => simp [hsk, hmg, hck]
      | some v =>
        by_cases hnull : isNullVal v = true
        · simp [hsk, hmg, hnull, hck]
        · simp [hsk, hmg, hnull]
    · have hck : ec.primaryKey.compositeKeys ≠ [] := hwf.mp (not_not.mp hsk)
      simp [not_not.mp hsk, hck]

/-- An empty extracted primary key suppresses the event: nothing reaches the
repository. -/
theorem interceptUnary_drops_empty_pk (cfg : InterceptorConfig) (fullMethod : GoStr)
    (req hResp : RpcValue)
    (freshId requestId userId userEmail ipAddr userAgent : GoStr) (durationMs : Int)
    (hpk : extractPrimaryKey cfg (derivedDomain fullMethod) req hResp = []) :
    (interceptUnary cfg fullMethod req hResp none freshId requestId userId userEmail
        ipAddr userAgent durationMs).saved = none := by
  unfold interceptUnary
  dsimp only
  repeat' split
  all_goals simp_all [apply_ite (fun r : InterceptResult => InterceptResult.saved r)]

/-- C2: on every intercepted call whose domain resolves to a well-formed
entity rule, the extracted primary key equals the claim's resolution rule
applied to the merge of the request and response maps (response winning),
and an empty extracted key means no audit event is created or saved. -/
theorem C2_primary_key_resolution (cfg : InterceptorConfig) (c : Config) (ec : EntityConfig)
    (fullMethod : GoStr) (req hResp : RpcValue)
    (freshId requestId userId userEmail ipAddr userAgent : GoStr) (durationMs : Int)
    (hc : cfg.config = some c)
    (hec : findEntityByDomain c.entities (derivedDomain fullMethod) = some ec)
    (hwf : ec.primaryKey.singleKey = [] ↔ ec.primaryKey.compositeKeys ≠ [])
    (hreq : req.isNil = false) :
    extractPrimaryKey cfg (derivedDomain fullMethod) req hResp
      = specResolvePrimaryKey ec.primaryKey
          (mergeMaps (orEmptyMap (protoToMapVal req)) (orEmptyMap (protoToMapVal hResp)))
    ∧ (extractPrimaryKey cfg (derivedDomain fullMethod) req hResp = [] →
        (interceptUnary cfg fullMethod req hResp none freshId requestId userId userEmail
            ipAddr userAgent durationMs).saved = none) := by
  constructor
  · have hce : cfgEntityByDomain cfg (derivedDomain fullMethod) = some ec := by
      unfold cfgEntityByDomain
      rw [hc]
      exact hec
    unfold extractPrimaryKey
    rw [hreq]
    simp only [Bool.false_eq_true, if_false]
    rw [hce]
    cases hrm : protoToMapVal req with
    | none =>
      cases hpm : protoToMapVal hResp with
      | none => exact resolveFromDataMap_spec ec _ hwf
      | some m2 => exact resolveFromDataMap_spec ec _ hwf
    | some m1 =>
      cases hpm : protoToMapVal hResp with
      | none => exact resolveFromDataMap_spec ec _ hwf
      | some m2 => exact resolveFromDataMap_spec ec _ hwf
  · intro hpk
    exact interceptUnary_drops_empty_pk cfg fullMethod req hResp freshId requestId userId
      userEmail ipAddr userAgent durationMs hpk

/-- Witness for C2 at the composite-key scenario: the extracted key agrees
with the claim's rule on the merged map (and evaluates to `"P7:BU1"`), and
the drop property holds at this call. -/
theorem C2_witness :
    (extractPrimaryKey c2Cfg (derivedDomain c2Method) c2Req c2Resp
        = specResolvePrimaryKey patientRule.primaryKey
            (mergeMaps (orEmptyMap (protoToMapVal c2Req)) (orEmptyMap (protoToMapVal c2Resp)))
      ∧ (extractPrimaryKey c2Cfg (derivedDomain c2Method) c2Req c2Resp = [] →
          (interceptUnary c2Cfg c2Method c2Req c2Resp none ( "id-9".data) ( "rq-9".data)
              ( "u1".data) ( "u1@h.test".data) ( "1.2.3.4".data) ( "ua".data) 3).saved = none))
    ∧ extractPrimaryKey c2Cfg (derivedDomain c2Method) c2Req c2Resp = ( "P7:BU1".data) :=
  ⟨C2_primary_key_resolution c2Cfg _ patientRule c2Method c2Req c2Resp ( "id-9".data)
      ( "rq-9".data) ( "u1".data) ( "u1@h.test".data) ( "1.2.3.4".data) ( "ua".data) 3
      rfl rfl (by decide) rfl,
    rfl⟩

end Datachangelog
